import Mathlib

/-!
Verification of the message-mention tracker of nonebot-plugin-whoasked.

The embedding models the two source files:
  - nonebot_plugin_whoasked/data_manager.py (class MessageRecorder)
  - nonebot_plugin_whoasked/__init__.py (process_query)

Python dicts are modelled as association lists that preserve insertion
order (Python 3.7+ dict semantics); machine clock readings are passed in
as an explicit `now : Int` parameter; the two tunables
(who_at_me_storage_days, who_at_me_max_messages) are explicit parameters.
-/

namespace WhoAsked

/-- One stored message record, the dict built in record_message
(data_manager.py lines 80-89 and 93-102).  Optional dict values that are
None in Python are `Option.none` here. -/
structure Event where
  time : Int
  user_id : String
  raw_message : String
  at_list : List String
  is_reply : Bool
  reply_user_id : Option String
  sender_name : Option String
  group_id : Option String
deriving DecidableEq, Repr

/-- self.messages : Dict[str, List[dict]], an insertion-ordered mapping
from recipient id to the list of recorded events. -/
abbrev RecipientIndex := List (String × List Event)

/-- Python dict lookup `d[u]` / `u in d`: first (and only, keys unique)
binding of the key. -/
def lookupIndex : RecipientIndex → String → Option (List Event)
  | [], _ => none
  | (k, es) :: rest, u => if k = u then some es else lookupIndex rest u

/-- `self.messages.setdefault(u, []).append(e)` (data_manager.py lines
112 and 115): append to the existing list of key u, or add a new binding
u ↦ [e] at the end of the dict. -/
def setdefaultAppend : RecipientIndex → String → Event → RecipientIndex
  | [], u, e => [(u, [e])]
  | (k, es) :: rest, u, e =>
    if k = u then (k, es ++ [e]) :: rest
    else (k, es) :: setdefaultAppend rest u e

/-- Model of _clean_old_messages (data_manager.py lines 119-124): for every key,
keep only events with time strictly greater than the expiry cutoff, and
delete keys whose list becomes empty.  The cutoff
`int(time.time()) - storage_days * 86400` is passed in as expireTime. -/
def cleanOldMessages : RecipientIndex → Int → RecipientIndex
  | [], _ => []
  | (k, es) :: rest, t =>
    let kept := es.filter (fun m => t < m.time)
    if kept.isEmpty then cleanOldMessages rest t
    else (k, kept) :: cleanOldMessages rest t

/-- The append phase of _record_for_users (data_manager.py lines
111-115): append the event under every id of at_list, then, if
reply_user_id is truthy (Python: not None and not the empty string),
also under reply_user_id. -/
def appendForUsers (idx : RecipientIndex) (atList : List String)
    (replyUserId : Option String) (info : Event) : RecipientIndex :=
  let idx1 := atList.foldl (fun acc u => setdefaultAppend acc u info) idx
  match replyUserId with
  | some u => if u = "" then idx1 else setdefaultAppend idx1 u info
  | none => idx1

/-- Model of _record_for_users (data_manager.py lines 110-117): the appends,
followed by one call to _clean_old_messages. -/
def recordForUsers (idx : RecipientIndex) (atList : List String)
    (replyUserId : Option String) (info : Event) (expireTime : Int) : RecipientIndex :=
  cleanOldMessages (appendForUsers idx atList replyUserId info) expireTime

/-- A message segment, as inspected by the loop of record_message lines
67-71: only segments of type "at" are looked at, and their
data.get("qq", "") value (absent modelled as none). -/
inductive Seg where
  | atSeg (qq : Option String)
  | other
deriving DecidableEq, Repr

/-- The mention-collection loop (data_manager.py lines 67-71): for every
"at" segment take str(seg.data.get("qq", "")) and keep it when nonempty,
in segment order. -/
def extractAtList (segs : List Seg) : List String :=
  segs.filterMap (fun s =>
    match s with
    | Seg.atSeg qq => let uid := qq.getD ""; if uid = "" then none else some uid
    | Seg.other => none)

/-- An OneBot sender: user_id (already stringified), optional group card
and optional nickname. -/
structure Sender where
  user_id : String
  card : Option String
  nickname : Option String
deriving DecidableEq, Repr

/-- Python `card or nickname`: nickname when card is None or the empty
string, card otherwise. -/
def pyOrName (card : Option String) (nickname : Option String) : Option String :=
  match card with
  | some c => if c = "" then nickname else some c
  | none => nickname

/-- The reply metadata carried by a reply message (event.reply): the
original author, the original serialized content str(reply_msg.message),
and the original message timestamp (present in the adapter metadata;
record_message does not read it). -/
structure ReplyMeta where
  sender : Sender
  message : String
  time : Int
deriving DecidableEq, Repr

/-- An inbound message event as consumed by record_message: its ordered
segments, whether it is a group message (and the group id when so), the
optional reply metadata, the author id, the serialized content
str(message), and the sender info. -/
structure InboundEvent where
  segments : List Seg
  isGroup : Bool
  group_id : String
  reply : Option ReplyMeta
  user_id : String
  raw_message : String
  sender : Sender
deriving DecidableEq, Repr

/-- reply_message_info (data_manager.py lines 80-89): the synthesized
record for the replied-to original message.  Its time field is
int(time.time()), the recording time. -/
def synthEvent (r : ReplyMeta) (now : Int) (groupId : Option String) : Event :=
  { time := now
    user_id := r.sender.user_id
    raw_message := r.message
    at_list := []
    is_reply := false
    reply_user_id := none
    sender_name := pyOrName r.sender.card r.sender.nickname
    group_id := groupId }

/-- message_info (data_manager.py lines 93-102): the record for the
current inbound message. -/
def currentEvent (ev : InboundEvent) (atList : List String) (isReply : Bool)
    (replyUserId : Option String) (now : Int) : Event :=
  { time := now
    user_id := ev.user_id
    raw_message := ev.raw_message
    at_list := atList
    is_reply := isReply
    reply_user_id := replyUserId
    sender_name :=
      if ev.isGroup then pyOrName ev.sender.card ev.sender.nickname
      else ev.sender.nickname
    group_id := if ev.isGroup then some ev.group_id else none }

/-- The outcome of one record_message call: the new in-memory index and
whether _save_messages_async was reached. -/
structure RecordResult where
  messages : RecipientIndex
  saved : Bool
deriving DecidableEq, Repr

/-- record_message (data_manager.py lines 51-108) under the lock: empty
message returns early with no mutation and no save; otherwise collect the
at list, detect the reply, call _record_for_users with ([], None) on the
synthesized reply record when the message is a reply, build message_info,
call _record_for_users for it, and save. -/
def record_message (idx : RecipientIndex) (ev : InboundEvent)
    (now : Int) (storageDays : Int) : RecordResult :=
  if ev.segments.isEmpty then ⟨idx, false⟩
  else
    let groupId := if ev.isGroup then some ev.group_id else none
    let atList := extractAtList ev.segments
    let isReply := ev.reply.isSome
    let replyUserId := ev.reply.map (fun r => r.sender.user_id)
    let expireTime := now - storageDays * 86400
    let idx1 :=
      match ev.reply with
      | some r => recordForUsers idx [] none (synthEvent r now groupId) expireTime
      | none => idx
    let info := currentEvent ev atList isReply replyUserId now
    let idx2 := recordForUsers idx1 atList replyUserId info expireTime
    ⟨idx2, true⟩

/-- Stable insertion of an event into a list already sorted by time
descending: the new element goes before the first strictly older element,
after every element at least as recent (ties keep the earlier-inserted
element first). -/
def insertByTimeDesc (e : Event) : List Event → List Event
  | [] => [e]
  | x :: xs => if x.time ≤ e.time then e :: x :: xs else x :: insertByTimeDesc e xs

/-- Python sorted(msgs, key time, reverse=True) is a stable sort by time
descending; a stable sort is extensionally unique, modelled here by
stable insertion sort. -/
def sortByTimeDesc : List Event → List Event
  | [] => []
  | x :: xs => insertByTimeDesc x (sortByTimeDesc xs)

/-- get_at_messages (data_manager.py lines 126-132): empty when the user
has no binding, otherwise ALL of the stored events of the user, sorted
by time descending (stable), truncated to who_at_me_max_messages.  No
filtering happens here. -/
def get_at_messages (idx : RecipientIndex) (user_id : String)
    (maxMessages : Nat) : List Event :=
  match lookupIndex idx user_id with
  | none => []
  | some msgs => (sortByTimeDesc msgs).take maxMessages

/-- The filter applied by process_query (plugin __init__.py lines
119-124): same group, and either mentioned there or the target of a
reply. -/
def queryFilter (user_id : String) (current_group_id : String) (msg : Event) : Bool :=
  msg.group_id = some current_group_id &&
    (msg.at_list.contains user_id ||
      (msg.is_reply && msg.reply_user_id = some user_id))

/-- process_query (plugin __init__.py lines 103-130), up to rendering:
the events returned by get_at_messages, filtered by queryFilter.  Note
the truncation inside get_at_messages happens before this filter. -/
def process_query (idx : RecipientIndex) (user_id : String)
    (current_group_id : String) (maxMessages : Nat) : List Event :=
  (get_at_messages idx user_id maxMessages).filter (queryFilter user_id current_group_id)

/-- Modelled from the spec (Query Engine, section 4.5): filter to the
current group and mention or reply match FIRST, then stable sort by time
descending, then truncate to the configured maximum.  Written for
comparison with the implemented pipeline, which truncates before it
filters. -/
def querySpecFilterFirst (idx : RecipientIndex) (user_id : String)
    (current_group_id : String) (maxMessages : Nat) : List Event :=
  (sortByTimeDesc
    (((lookupIndex idx user_id).getD []).filter
      (queryFilter user_id current_group_id))).take maxMessages

/-- Modelled from the spec (Recorder, section 4.4): the same appends as
record_message, with the Retention Policy applied exactly once after all
of the appends of one inbound message, before the persist.  Written for
comparison with record_message, which prunes at the end of every
_record_for_users call. -/
def recordMessagePruneOnce (idx : RecipientIndex) (ev : InboundEvent)
    (now : Int) (storageDays : Int) : RecordResult :=
  if ev.segments.isEmpty then ⟨idx, false⟩
  else
    let groupId := if ev.isGroup then some ev.group_id else none
    let atList := extractAtList ev.segments
    let isReply := ev.reply.isSome
    let replyUserId := ev.reply.map (fun r => r.sender.user_id)
    let expireTime := now - storageDays * 86400
    let idx1 :=
      match ev.reply with
      | some r => appendForUsers idx [] none (synthEvent r now groupId)
      | none => idx
    let info := currentEvent ev atList isReply replyUserId now
    let idx2 := appendForUsers idx1 atList replyUserId info
    ⟨cleanOldMessages idx2 expireTime, true⟩

/-- The author of the replied-to original message in the scenarios. -/
def senderU1 : Sender := ⟨"U1", none, some "u1"⟩

/-- The author of the current inbound message in the scenarios. -/
def senderU2 : Sender := ⟨"U2", none, some "u2"⟩

/-- Reply metadata of the spec scenario: U1 wrote "hi" at t=900. -/
def replyHi : ReplyMeta := ⟨senderU1, "hi", 900⟩

/-- The spec scenario inbound message: U2 replies "ok" to U1 in group G1,
with no mention segments. -/
def evReplyOk : InboundEvent := ⟨[Seg.other], true, "G1", some replyHi, "U2", "ok", senderU2⟩

/-- The record that record_message builds for the "ok" reply when
recorded at t=1000. -/
def replyOkStored : Event := ⟨1000, "U2", "ok", [], true, some "U1", some "u2", some "G1"⟩

/-- The record built for the "ok" reply when recorded at t=1000000. -/
def replyOkStored2 : Event := ⟨1000000, "U2", "ok", [], true, some "U1", some "u2", some "G1"⟩

/-- An event under recipient U1 that is expired at t=1000000 with a one
day retention window. -/
def eOldU1 : Event := ⟨0, "X", "m", ["U1"], false, none, none, some "G1"⟩

/-- A still fresh event under recipient V at t=1000000. -/
def eFreshV : Event := ⟨999999, "Y", "mv", ["V"], false, none, none, some "G1"⟩

/-- An index holding one expired event under U1 and one fresh event under
V, with U1 bound before V. -/
def idxStale : RecipientIndex := [("U1", [eOldU1]), ("V", [eFreshV])]

/-- A mention of U in group G1 at t=100. -/
def eMentionG1 : Event := ⟨100, "X", "m1", ["U"], false, none, none, some "G1"⟩

/-- A mention of U in group G2 at t=200. -/
def eMentionG2 : Event := ⟨200, "X", "m2", ["U"], false, none, none, some "G2"⟩

/-- An index where U was mentioned in two different groups. -/
def idxTwoGroups : RecipientIndex := [("U", [eMentionG1, eMentionG2])]

/-- An inbound group message with no mention segments and no reply
metadata. -/
def evPlain : InboundEvent := ⟨[Seg.other], true, "G1", none, "W", "hello", senderU2⟩

/-- An event under recipient A that is expired at t=1000000 with a one
day retention window. -/
def eOldA : Event := ⟨0, "X", "m", ["A"], false, none, none, some "G1"⟩

/-- A JSON document, the on-disk format written by json.dump and read by
json.load (data_manager.py lines 36 and 47). -/
inductive Json where
  | null
  | bool (b : Bool)
  | int (n : Int)
  | str (s : String)
  | arr (items : List Json)
  | obj (fields : List (String × Json))

/-- Serialization of an optional string dict value: Python None becomes
JSON null. -/
def jsonOfOptStr : Option String → Json
  | none => Json.null
  | some s => Json.str s

/-- Reading back an optional string dict value. -/
def optStrOfJson : Json → Option (Option String)
  | Json.null => some none
  | Json.str s => some (some s)
  | _ => none

/-- json.dump of one event dict: every field is always present; None
values are serialized as null. -/
def encodeEvent (e : Event) : Json :=
  Json.obj [("time", Json.int e.time),
            ("user_id", Json.str e.user_id),
            ("raw_message", Json.str e.raw_message),
            ("at_list", Json.arr (e.at_list.map Json.str)),
            ("is_reply", Json.bool e.is_reply),
            ("reply_user_id", jsonOfOptStr e.reply_user_id),
            ("sender_name", jsonOfOptStr e.sender_name),
            ("group_id", jsonOfOptStr e.group_id)]

/-- Key lookup in a JSON object, as Python indexing of the loaded dict. -/
def jLookup : List (String × Json) → String → Option Json
  | [], _ => none
  | (k, v) :: rest, key => if k = key then some v else jLookup rest key

def intOfJson : Json → Option Int
  | Json.int n => some n
  | _ => none

def strOfJson : Json → Option String
  | Json.str s => some s
  | _ => none

def boolOfJson : Json → Option Bool
  | Json.bool b => some b
  | _ => none

/-- Traverse a list with a fallible reader: all elements must decode, in
order, or the whole read fails (a corrupt record). -/
def decodeAll (f : α → Option β) : List α → Option (List β)
  | [] => some []
  | x :: xs =>
    match f x, decodeAll f xs with
    | some y, some ys => some (y :: ys)
    | _, _ => none

def strListOfJson : Json → Option (List String)
  | Json.arr items => decodeAll strOfJson items
  | _ => none

/-- Reading one event dict back from the loaded JSON: json.load yields
the dict unchanged, and downstream code reads exactly these keys; a
document of any other shape is a corrupt record. -/
def decodeEvent (j : Json) : Option Event :=
  match j with
  | Json.obj fs => do
      let t ← jLookup fs "time" >>= intOfJson
      let u ← jLookup fs "user_id" >>= strOfJson
      let raw ← jLookup fs "raw_message" >>= strOfJson
      let al ← jLookup fs "at_list" >>= strListOfJson
      let ir ← jLookup fs "is_reply" >>= boolOfJson
      let ru ← jLookup fs "reply_user_id" >>= optStrOfJson
      let sn ← jLookup fs "sender_name" >>= optStrOfJson
      let g ← jLookup fs "group_id" >>= optStrOfJson
      pure ⟨t, u, raw, al, ir, ru, sn, g⟩
  | _ => none

/-- Model of _save_messages (data_manager.py lines 43-49): json.dump of the whole
index, a JSON object mapping recipient id to the array of its event
dicts, in dict insertion order. -/
def saveMessages (idx : RecipientIndex) : Json :=
  Json.obj (idx.map (fun p => (p.1, Json.arr (p.2.map encodeEvent))))

def decodeEventList : Json → Option (List Event)
  | Json.arr items => decodeAll decodeEvent items
  | _ => none

/-- Reading a whole index back from a loaded JSON document. -/
def decodeIndex : Json → Option RecipientIndex
  | Json.obj fs =>
      decodeAll (fun p => (decodeEventList p.2).map (fun es => (p.1, es))) fs
  | _ => none

/-- The state of the storage file as _load_messages finds it: no file at
all, a file whose content json.load cannot parse, or a parsed JSON
document. -/
inductive StoredFile where
  | absent
  | unreadable
  | content (j : Json)

/-- Typed reading of a stored document into a recipient index, used to
state the save/load round-trip: a missing or unparseable file gives the
empty index, a parsed document is decoded.  This typed reading is NOT the
full dynamic behavior of _load_messages on arbitrary documents (that is
loadMessagesRaw below), but the two agree on every save-produced
document, the only path the round-trip exercises
(lemma loadMessagesRaw_save). -/
def loadMessages : StoredFile → RecipientIndex
  | StoredFile.absent => []
  | StoredFile.unreadable => []
  | StoredFile.content j => (decodeIndex j).getD []

/-- Python len(v) is defined on strings, lists and dicts, and raises
TypeError on None, booleans and numbers.  The log line of _load_messages
(data_manager.py line 37) computes sum(len(v) for v in data.values())
inside the try block before the data is returned. -/
def pyLenDefined : Json → Bool
  | Json.str _ => true
  | Json.arr _ => true
  | Json.obj _ => true
  | _ => false

/-- Faithful model of _load_messages (data_manager.py lines 29-41) at the
level of the dynamically typed parsed document: a missing file gives an
empty dict; content that json.load cannot parse gives an empty dict (the
exception is caught); a parsed document that is not a dict makes
data.values() raise AttributeError, and a dict holding a value on which
len raises makes the log line raise TypeError, both inside the try block,
again giving an empty dict; any other parsed dict is returned AS-IS,
with no shape validation, even when it is not a well-formed recipient
index.  Total: it never raises to its caller. -/
def loadMessagesRaw : StoredFile → Json
  | StoredFile.absent => Json.obj []
  | StoredFile.unreadable => Json.obj []
  | StoredFile.content j =>
    match j with
    | Json.obj fs =>
        if fs.all (fun p => pyLenDefined p.2) then Json.obj fs else Json.obj []
    | _ => Json.obj []

lemma optStr_roundtrip (o : Option String) : optStrOfJson (jsonOfOptStr o) = some o := by
  cases o <;> rfl

lemma strList_roundtrip (l : List String) :
    strListOfJson (Json.arr (l.map Json.str)) = some l := by
  induction l with
  | nil => rfl
  | cons x xs ih =>
      have ih2 : decodeAll strOfJson (xs.map Json.str) = some xs := by
        simpa [strListOfJson] using ih
      simp [strListOfJson, decodeAll, strOfJson, ih2]

lemma decodeEvent_roundtrip (e : Event) : decodeEvent (encodeEvent e) = some e := by
  cases e with
  | mk t u raw al ir ru sn g =>
      simp [decodeEvent, encodeEvent, jLookup, intOfJson, strOfJson, boolOfJson,
        strList_roundtrip, optStr_roundtrip]

lemma decodeEventList_roundtrip (es : List Event) :
    decodeEventList (Json.arr (es.map encodeEvent)) = some es := by
  induction es with
  | nil => rfl
  | cons x xs ih =>
      have ih2 : decodeAll decodeEvent (xs.map encodeEvent) = some xs := by
        simpa [decodeEventList] using ih
      simp [decodeEventList, decodeAll, decodeEvent_roundtrip, ih2]

lemma decodeIndex_roundtrip (idx : RecipientIndex) :
    decodeIndex (saveMessages idx) = some idx := by
  induction idx with
  | nil => rfl
  | cons p rest ih =>
      have ih2 : decodeAll (fun p => (decodeEventList p.2).map (fun es => (p.1, es)))
          (rest.map (fun p => (p.1, Json.arr (p.2.map encodeEvent)))) = some rest := by
        simpa [decodeIndex, saveMessages] using ih
      simp [decodeIndex, saveMessages, decodeAll, decodeEventList_roundtrip, ih2]

/-- Claim C7: save followed by load reproduces an index with the same
recipients, the same event field values per recipient and the same
insertion order within each recipient list; optional fields
(reply_user_id, group_id) round-trip losslessly, absence (null) included:
the reloaded index is equal to the saved one. -/
theorem c7_save_load_roundtrip (idx : RecipientIndex) :
    loadMessages (StoredFile.content (saveMessages idx)) = idx := by
  simp [loadMessages, decodeIndex_roundtrip]

lemma loadMessagesRaw_save (idx : RecipientIndex) :
    loadMessagesRaw (StoredFile.content (saveMessages idx)) = saveMessages idx := by
  have hall : (idx.map (fun p => (p.1, Json.arr (p.2.map encodeEvent)))).all
      (fun p => pyLenDefined p.2) = true := by
    rw [List.all_eq_true]
    intro p hp
    obtain ⟨q, hq, rfl⟩ := List.mem_map.mp hp
    rfl
  simp [loadMessagesRaw, saveMessages, hall]

/-- Counterexample to claim C8 as stated: the parseable but ill-shaped
stored document binding the single key a to the list with the one string
x does not decode to a recipient index (it is corrupt stored data), yet
_load_messages returns it unchanged rather than the empty index, because
the only thing it evaluates after json.load is the len call of the log
line, and len succeeds on lists. -/
theorem c8_counterexample :
    decodeIndex (Json.obj [("a", Json.arr [Json.str "x"])]) = none ∧
    loadMessagesRaw (StoredFile.content (Json.obj [("a", Json.arr [Json.str "x"])])) =
      Json.obj [("a", Json.arr [Json.str "x"])] ∧
    loadMessagesRaw (StoredFile.content (Json.obj [("a", Json.arr [Json.str "x"])])) ≠
      Json.obj [] := by
  refine ⟨rfl, rfl, by simp [loadMessagesRaw, pyLenDefined]⟩

/-- Claim C8, amended: load never raises to its caller (it is a total
function); a missing file and content that json.load cannot parse yield
the empty index, as does a parsed document that is not an object (the
values call of the log line raises AttributeError there) or an object
holding a value on which len raises, that is null, a boolean or a number
(the log line raises TypeError there); but a parsed object all of whose
values support len is returned unchanged, with no further shape
validation, even when it is not a well-formed recipient index. -/
theorem c8_load_total_fallback :
    loadMessagesRaw StoredFile.absent = Json.obj [] ∧
    loadMessagesRaw StoredFile.unreadable = Json.obj [] ∧
    (∀ fs : List (String × Json), (∀ p ∈ fs, pyLenDefined p.2 = true) →
      loadMessagesRaw (StoredFile.content (Json.obj fs)) = Json.obj fs) ∧
    (∀ fs : List (String × Json), (∃ p ∈ fs, pyLenDefined p.2 = false) →
      loadMessagesRaw (StoredFile.content (Json.obj fs)) = Json.obj []) ∧
    loadMessagesRaw (StoredFile.content Json.null) = Json.obj [] ∧
    (∀ b : Bool, loadMessagesRaw (StoredFile.content (Json.bool b)) = Json.obj []) ∧
    (∀ n : Int, loadMessagesRaw (StoredFile.content (Json.int n)) = Json.obj []) ∧
    (∀ s : String, loadMessagesRaw (StoredFile.content (Json.str s)) = Json.obj []) ∧
    (∀ items : List Json,
      loadMessagesRaw (StoredFile.content (Json.arr items)) = Json.obj []) := by
  refine ⟨rfl, rfl, ?_, ?_, rfl, fun b => rfl, fun n => rfl, fun s => rfl,
    fun items => rfl⟩
  · intro fs h
    have hall : fs.all (fun p => pyLenDefined p.2) = true := List.all_eq_true.mpr h
    simp [loadMessagesRaw, hall]
  · intro fs h
    obtain ⟨p, hp, hfalse⟩ := h
    cases hall : fs.all (fun p => pyLenDefined p.2) with
    | true => exact absurd (List.all_eq_true.mp hall p hp) (by simp [hfalse])
    | false => simp [loadMessagesRaw, hall]

/-- Witness for claim C8 amended, at one len-compatible ill-shaped object
that is returned unchanged and one object with a null value that is
replaced by the empty dict. -/
theorem c8_amended_witness :
    loadMessagesRaw (StoredFile.content (Json.obj [("a", Json.arr [])])) =
      Json.obj [("a", Json.arr [])] ∧
    loadMessagesRaw (StoredFile.content (Json.obj [("b", Json.null)])) = Json.obj [] :=
  ⟨c8_load_total_fallback.2.2.1 [("a", Json.arr [])] (by simp [pyLenDefined]),
   c8_load_total_fallback.2.2.2.1 [("b", Json.null)]
     ⟨("b", Json.null), List.mem_singleton.mpr rfl, rfl⟩⟩

lemma mem_insertByTimeDesc {e y : Event} {l : List Event}
    (h : y ∈ insertByTimeDesc e l) : y = e ∨ y ∈ l := by
  induction l with
  | nil => simpa [insertByTimeDesc] using h
  | cons x xs ih =>
      by_cases hle : x.time ≤ e.time
      · simp [insertByTimeDesc, hle] at h
        rcases h with h | h | h
        · exact Or.inl h
        · exact Or.inr (by simp [h])
        · exact Or.inr (by simp [h])
      · simp [insertByTimeDesc, hle] at h
        rcases h with h | h
        · exact Or.inr (by simp [h])
        · rcases ih h with h2 | h2
          · exact Or.inl h2
          · exact Or.inr (by simp [h2])

lemma pairwise_insertByTimeDesc {e : Event} {l : List Event}
    (h : l.Pairwise (fun a b => b.time ≤ a.time)) :
    (insertByTimeDesc e l).Pairwise (fun a b => b.time ≤ a.time) := by
  induction l with
  | nil => simp [insertByTimeDesc]
  | cons x xs ih =>
      rcases List.pairwise_cons.mp h with ⟨hx, hxs⟩
      by_cases hle : x.time ≤ e.time
      · simp only [insertByTimeDesc, if_pos hle]
        refine List.pairwise_cons.mpr ⟨?_, h⟩
        intro y hy
        rcases hy with _ | hy
        · exact hle
        · exact le_trans (hx y (by assumption)) hle
      · simp only [insertByTimeDesc, if_neg hle]
        refine List.pairwise_cons.mpr ⟨?_, ih hxs⟩
        intro y hy
        rcases mem_insertByTimeDesc hy with rfl | hy2
        · exact le_of_lt (lt_of_not_le hle)
        · exact hx y hy2

lemma pairwise_sortByTimeDesc (l : List Event) :
    (sortByTimeDesc l).Pairwise (fun a b => b.time ≤ a.time) := by
  induction l with
  | nil => simp [sortByTimeDesc]
  | cons x xs ih => exact pairwise_insertByTimeDesc ih

/-- Claim C2, amended: the query pipeline takes the events stored under
the user, sorts them by timestamp descending (stable, ties in insertion
order), truncates to the configured maximum FIRST, and only then filters
by current group and mention or reply match; consequently the result has
at most the maximum number of entries, is ordered by descending
timestamp, and every returned event satisfies the filter. -/
theorem c2_query_truncates_before_filtering (idx : RecipientIndex)
    (uid gid : String) (maxMessages : Nat) :
    process_query idx uid gid maxMessages =
      ((sortByTimeDesc ((lookupIndex idx uid).getD [])).take maxMessages).filter
        (queryFilter uid gid) ∧
    (process_query idx uid gid maxMessages).length ≤ maxMessages ∧
    (process_query idx uid gid maxMessages).Pairwise (fun a b => b.time ≤ a.time) ∧
    ∀ e ∈ process_query idx uid gid maxMessages, queryFilter uid gid e = true := by
  have heq : process_query idx uid gid maxMessages =
      ((sortByTimeDesc ((lookupIndex idx uid).getD [])).take maxMessages).filter
        (queryFilter uid gid) := by
    cases h : lookupIndex idx uid <;>
      simp [process_query, get_at_messages, h, sortByTimeDesc]
  refine ⟨heq, ?_, ?_, ?_⟩
  · rw [heq]
    calc (((sortByTimeDesc ((lookupIndex idx uid).getD [])).take maxMessages).filter
          (queryFilter uid gid)).length
        ≤ ((sortByTimeDesc ((lookupIndex idx uid).getD [])).take maxMessages).length :=
          List.length_filter_le _ _
      _ ≤ maxMessages := List.length_take_le _ _
  · rw [heq]
    exact (pairwise_sortByTimeDesc _).sublist
      ((List.filter_sublist _).trans (List.take_sublist _ _))
  · intro e he
    rw [heq] at he
    exact (List.mem_filter.mp he).2

/-- Counterexample to claim C2 as stated: with one mention of U in G1 at
t=100 and one in G2 at t=200 and a maximum of 1, the implementation
truncates to the newest event (the G2 one) before filtering by group and
returns nothing for G1, while the filter-first pipeline of the claim
returns the G1 event. -/
theorem c2_counterexample :
    process_query idxTwoGroups "U" "G1" 1 = [] ∧
    querySpecFilterFirst idxTwoGroups "U" "G1" 1 = [eMentionG1] ∧
    process_query idxTwoGroups "U" "G1" 1 ≠ querySpecFilterFirst idxTwoGroups "U" "G1" 1 := by
  refine ⟨by decide, by decide, by decide⟩

/-- Claim C1, evaluated at the failing input: recording the scenario
reply (U2 replies "ok" to U1 in G1 on an empty index) stores ONLY the
reply event under U1; the synthesized original-message record built at
data_manager.py lines 80-89 is appended under no recipient, because line
90 calls the append helper with an empty mention list and None as the
reply target, so query(U1, G1) returns just the reply event. -/
theorem c1_synthesized_event_never_appended :
    (record_message [] evReplyOk 1000 1).messages = [("U1", [replyOkStored])] ∧
    process_query (record_message [] evReplyOk 1000 1).messages "U1" "G1" 10 = [replyOkStored] ∧
    replyOkStored.is_reply = true ∧ replyOkStored.raw_message = "ok" := by
  refine ⟨by decide, by decide, rfl, rfl⟩

/-- Counterexample to claim C3 as stated: the synthesized record for the
replied-to original message (original written at t=900, recorded at
t=1000) carries the recording time 1000, not the original timestamp
900. -/
theorem c3_counterexample :
    (synthEvent replyHi 1000 (some "G1")).time = 1000 ∧
    replyHi.time = 900 ∧
    (synthEvent replyHi 1000 (some "G1")).time ≠ replyHi.time := by
  refine ⟨rfl, rfl, by decide⟩

/-- Claim C3, amended: the synthesized record carries the RECORDING time
(not the original timestamp), the original author, the original raw
content, an empty mention set and is_reply false; and in the reply
scenario the query result contains only the reply event, since the
synthesized record is never appended to any recipient list. -/
theorem c3_synth_event_fields (r : ReplyMeta) (now : Int) (g : Option String) :
    ((synthEvent r now g).time = now ∧
     (synthEvent r now g).user_id = r.sender.user_id ∧
     (synthEvent r now g).raw_message = r.message ∧
     (synthEvent r now g).at_list = [] ∧
     (synthEvent r now g).is_reply = false) ∧
    process_query (record_message [] evReplyOk 1000 1).messages "U1" "G1" 10 = [replyOkStored] :=
  ⟨⟨rfl, rfl, rfl, rfl, rfl⟩, by decide⟩

/-- Claim C4, amended: for a nonempty inbound message with no mention
segments and no reply metadata, record appends no event, but it still
runs the retention prune (which can mutate the index by expiring old
events) and it still reaches the persistence write. -/
theorem c4_no_mention_no_reply (idx : RecipientIndex) (ev : InboundEvent)
    (now storageDays : Int) (h1 : ev.segments ≠ [])
    (h2 : extractAtList ev.segments = []) (h3 : ev.reply = none) :
    record_message idx ev now storageDays =
      ⟨cleanOldMessages idx (now - storageDays * 86400), true⟩ := by
  have hne : ev.segments.isEmpty = false := by
    cases hs : ev.segments with
    | nil => exact absurd hs h1
    | cons a as => rfl
  simp [record_message, hne, h2, h3, recordForUsers, appendForUsers]

/-- Counterexample to claim C4 as stated: a plain text message with no
mentions and no reply still triggers a persistence write, and the index
changes because the prune drops the expired event of recipient A. -/
theorem c4_counterexample :
    (record_message [("A", [eOldA])] evPlain 1000000 1).saved = true ∧
    (record_message [("A", [eOldA])] evPlain 1000000 1).messages ≠ [("A", [eOldA])] := by
  refine ⟨by decide, by decide⟩

/-- Witness for claim C4 at a concrete input. -/
theorem c4_witness :
    record_message [("A", [eOldA])] evPlain 1000000 1 =
      ⟨cleanOldMessages [("A", [eOldA])] (1000000 - 1 * 86400), true⟩ :=
  c4_no_mention_no_reply [("A", [eOldA])] evPlain 1000000 1 (by decide) (by decide) (by decide)

/-- Counterexample to claim C5 as stated: on a reply message the prune
runs twice, once inside each of the two _record_for_users calls, and this
is observable: with an expired event under U1 and a fresh event under V,
the first prune deletes the U1 binding before the reply is appended, so
U1 is re-created AFTER V; applying the prune only once after all appends
keeps U1 in front of V.  The two resulting indices differ. -/
theorem c5_counterexample :
    record_message idxStale evReplyOk 1000000 1 =
      ⟨[("V", [eFreshV]), ("U1", [replyOkStored2])], true⟩ ∧
    recordMessagePruneOnce idxStale evReplyOk 1000000 1 =
      ⟨[("U1", [replyOkStored2]), ("V", [eFreshV])], true⟩ ∧
    record_message idxStale evReplyOk 1000000 1 ≠
      recordMessagePruneOnce idxStale evReplyOk 1000000 1 := by
  refine ⟨by decide, by decide, by decide⟩

/-- Claim C5, amended: for a reply message the retention prune is applied
once per append batch, hence twice: once right after the synthesized
record step (which appends nothing, so this prune runs BEFORE the current
message is appended) and once after the current message appends; the last
prune precedes the persist. -/
theorem c5_prune_per_batch (idx : RecipientIndex) (ev : InboundEvent) (r : ReplyMeta)
    (now storageDays : Int) (h1 : ev.segments ≠ []) (h2 : ev.reply = some r) :
    record_message idx ev now storageDays =
      ⟨cleanOldMessages
        (appendForUsers (cleanOldMessages idx (now - storageDays * 86400))
          (extractAtList ev.segments) (some r.sender.user_id)
          (currentEvent ev (extractAtList ev.segments) true (some r.sender.user_id) now))
        (now - storageDays * 86400), true⟩ := by
  have hne : ev.segments.isEmpty = false := by
    cases hs : ev.segments with
    | nil => exact absurd hs h1
    | cons a as => rfl
  simp [record_message, hne, h2, recordForUsers, appendForUsers]

/-- Witness for claim C5 at a concrete input. -/
theorem c5_witness :
    record_message idxStale evReplyOk 1000000 1 =
      ⟨cleanOldMessages
        (appendForUsers (cleanOldMessages idxStale (1000000 - 1 * 86400))
          (extractAtList evReplyOk.segments) (some replyHi.sender.user_id)
          (currentEvent evReplyOk (extractAtList evReplyOk.segments) true
            (some replyHi.sender.user_id) 1000000))
        (1000000 - 1 * 86400), true⟩ :=
  c5_prune_per_batch idxStale evReplyOk replyHi 1000000 1 (by decide) (by decide)

lemma lookupIndex_eq_none_of_not_mem {idx : RecipientIndex} {u : String}
    (h : u ∉ idx.map Prod.fst) : lookupIndex idx u = none := by
  induction idx with
  | nil => rfl
  | cons p rest ih =>
      obtain ⟨k, es⟩ := p
      simp only [List.map_cons, List.mem_cons, not_or] at h
      simp only [lookupIndex, if_neg (Ne.symm h.1)]
      exact ih h.2

lemma lookupIndex_cleanOldMessages_none {idx : RecipientIndex} {u : String} {t : Int}
    (h : lookupIndex idx u = none) :
    lookupIndex (cleanOldMessages idx t) u = none := by
  induction idx with
  | nil => rfl
  | cons p rest ih =>
      obtain ⟨k, es⟩ := p
      by_cases hk : k = u
      · simp [lookupIndex, hk] at h
      · simp only [lookupIndex, if_neg hk] at h
        by_cases hkept : (es.filter (fun m => t < m.time)).isEmpty
        · simp only [cleanOldMessages, if_pos hkept]
          exact ih h
        · simp only [cleanOldMessages, if_neg hkept, lookupIndex, if_neg hk]
          exact ih h

lemma lookup_cleanOldMessages (idx : RecipientIndex) (t : Int) (u : String)
    (h : (idx.map Prod.fst).Nodup) :
    lookupIndex (cleanOldMessages idx t) u =
      (match lookupIndex idx u with
       | none => none
       | some es =>
          let kept := es.filter (fun m => t < m.time)
          if kept.isEmpty then none else some kept) := by
  induction idx with
  | nil => rfl
  | cons p rest ih =>
      obtain ⟨k, es⟩ := p
      simp only [List.map_cons, List.nodup_cons] at h
      obtain ⟨hknotin, hnodup⟩ := h
      by_cases hk : k = u
      · subst hk
        have hrest : lookupIndex rest k = none := lookupIndex_eq_none_of_not_mem hknotin
        by_cases hkept : (es.filter (fun m => t < m.time)).isEmpty
        · simp only [cleanOldMessages, if_pos hkept, lookupIndex, if_pos rfl, if_true,
            lookupIndex_cleanOldMessages_none hrest, hkept]
        · simp only [cleanOldMessages, if_neg hkept, lookupIndex, if_pos rfl, if_true]
      · by_cases hkept : (es.filter (fun m => t < m.time)).isEmpty
        · simp only [cleanOldMessages, if_pos hkept, lookupIndex, if_neg hk]
          exact ih hnodup
        · simp only [cleanOldMessages, if_neg hkept, lookupIndex, if_neg hk]
          exact ih hnodup

/-- Claim C6: for an index with unique recipient keys, the prune keeps,
for every recipient, exactly the events with timestamp strictly greater
than now minus maxAgeDays times 86400 seconds, and a recipient remains
bound in the pruned index exactly when its filtered list is nonempty. -/
theorem c6_prune_spec (idx : RecipientIndex) (maxAgeDays now : Int) (u : String)
    (h : (idx.map Prod.fst).Nodup) :
    lookupIndex (cleanOldMessages idx (now - maxAgeDays * 86400)) u =
      (match lookupIndex idx u with
       | none => none
       | some es =>
          let kept := es.filter (fun m => now - maxAgeDays * 86400 < m.time)
          if kept.isEmpty then none else some kept) :=
  lookup_cleanOldMessages idx (now - maxAgeDays * 86400) u h

/-- Witness for claim C6 at a concrete input with one expired and one
fresh recipient. -/
theorem c6_witness :
    lookupIndex (cleanOldMessages idxStale (1000000 - 1 * 86400)) "U1" =
      (match lookupIndex idxStale "U1" with
       | none => none
       | some es =>
          let kept := es.filter (fun m => 1000000 - 1 * 86400 < m.time)
          if kept.isEmpty then none else some kept) :=
  c6_prune_spec idxStale 1 1000000 "U1" (by decide)

/-- Claim C10: an inbound message that both mentions user U and replies
to a message authored by U has its event appended to the list of U twice,
once through the mention list and once through the reply target, and the
event then appears twice in the query result for U in that group. -/
theorem c10_mention_and_reply_double_append
    (U G author rawMsg origMsg nick1 nick2 : String)
    (origTime now storageDays : Int) (maxMessages : Nat)
    (ev : InboundEvent) (info : Event)
    (hev : ev = ⟨[Seg.atSeg (some U)], true, G,
      some ⟨⟨U, none, some nick1⟩, origMsg, origTime⟩, author, rawMsg,
      ⟨author, none, some nick2⟩⟩)
    (hinfo : info = currentEvent ev [U] true (some U) now)
    (hU : U ≠ "") (hdays : 0 < storageDays) (hmax : 2 ≤ maxMessages) :
    (record_message [] ev now storageDays).messages = [(U, [info, info])] ∧
    process_query (record_message [] ev now storageDays).messages U G maxMessages =
      [info, info] := by
  subst hev
  have hat : extractAtList [Seg.atSeg (some U)] = [U] := by
    simp [extractAtList, hU]
  have htime : now - storageDays * 86400 < now := by omega
  have hinfot : info.time = now := by rw [hinfo]; rfl
  have hrec : (record_message []
      (⟨[Seg.atSeg (some U)], true, G,
        some ⟨⟨U, none, some nick1⟩, origMsg, origTime⟩, author, rawMsg,
        ⟨author, none, some nick2⟩⟩ : InboundEvent) now storageDays).messages =
      [(U, [info, info])] := by
    simp only [record_message, List.isEmpty_cons, Bool.false_eq_true, if_false,
      recordForUsers, appendForUsers, hat, cleanOldMessages, List.filter_nil,
      List.isEmpty_nil, if_true, List.foldl_cons, List.foldl_nil, setdefaultAppend,
      if_pos rfl, Option.map_some, Option.map_some', Option.isSome_some]
    rw [if_neg hU]
    simp only [setdefaultAppend, if_pos rfl, ← hinfo]
    have hcond : decide (now - storageDays * 86400 < info.time) = true := by
      rw [hinfot]
      exact decide_eq_true htime
    simp [cleanOldMessages, List.filter_cons, hcond]
  refine ⟨hrec, ?_⟩
  rw [process_query, get_at_messages, hrec]
  simp only [lookupIndex, if_pos rfl, eq_self_iff_true, if_true]
  have hsort : sortByTimeDesc [info, info] = [info, info] := by
    simp [sortByTimeDesc, insertByTimeDesc]
  rw [hsort, List.take_of_length_le (by simpa using hmax)]
  have hfilter : queryFilter U G info = true := by
    rw [hinfo]
    simp [queryFilter, currentEvent]
  simp [List.filter_cons, hfilter]

/-- Witness for claim C10 at a concrete input. -/
theorem c10_witness :
    (record_message [] (⟨[Seg.atSeg (some "U1")], true, "G1",
        some ⟨⟨"U1", none, some "n1"⟩, "hi", 900⟩, "U2", "at U1 ok",
        ⟨"U2", none, some "n2"⟩⟩ : InboundEvent) 1000 1).messages =
      [("U1", [currentEvent (⟨[Seg.atSeg (some "U1")], true, "G1",
        some ⟨⟨"U1", none, some "n1"⟩, "hi", 900⟩, "U2", "at U1 ok",
        ⟨"U2", none, some "n2"⟩⟩ : InboundEvent) ["U1"] true (some "U1") 1000,
        currentEvent (⟨[Seg.atSeg (some "U1")], true, "G1",
        some ⟨⟨"U1", none, some "n1"⟩, "hi", 900⟩, "U2", "at U1 ok",
        ⟨"U2", none, some "n2"⟩⟩ : InboundEvent) ["U1"] true (some "U1") 1000])] ∧
    process_query (record_message [] (⟨[Seg.atSeg (some "U1")], true, "G1",
        some ⟨⟨"U1", none, some "n1"⟩, "hi", 900⟩, "U2", "at U1 ok",
        ⟨"U2", none, some "n2"⟩⟩ : InboundEvent) 1000 1).messages "U1" "G1" 2 =
      [currentEvent (⟨[Seg.atSeg (some "U1")], true, "G1",
        some ⟨⟨"U1", none, some "n1"⟩, "hi", 900⟩, "U2", "at U1 ok",
        ⟨"U2", none, some "n2"⟩⟩ : InboundEvent) ["U1"] true (some "U1") 1000,
       currentEvent (⟨[Seg.atSeg (some "U1")], true, "G1",
        some ⟨⟨"U1", none, some "n1"⟩, "hi", 900⟩, "U2", "at U1 ok",
        ⟨"U2", none, some "n2"⟩⟩ : InboundEvent) ["U1"] true (some "U1") 1000] :=
  c10_mention_and_reply_double_append "U1" "G1" "U2" "at U1 ok" "hi" "n1" "n2"
    900 1000 1 2 _ _ rfl rfl (by decide) (by decide) (by decide)

end WhoAsked
